import Mathlib

/-!
Verification development for the semiconductor-tools-hub CSV-to-TXT converter
(`src/app.py`).  Strings are modelled as `List Char`; the Python standard
library pieces the converter relies on (single-line `csv.reader` parsing with
the default dialect, `str.strip`, `str.split`, `str.splitlines`, `str.lower`,
regular-expression extraction, codec probing) are embedded as executable Lean
functions below, each one translated from the concrete behaviour the source
invokes.
-/

/-- The characters of a string literal. -/
def chars (s : String) : List Char := s.data

/-- The single-quote character (code point 39). -/
def squote : Char := Char.ofNat 39

/-- Whitespace as treated by Python `str.strip` / regex `\s`
(ASCII whitespace together with the common one-byte Unicode spaces). -/
def isPySpace (c : Char) : Bool :=
  c == ' ' || c == '\t' || c == '\n' || c == '\r' || c == '\x0b' || c == '\x0c' ||
  c == '\x1c' || c == '\x1d' || c == '\x1e' || c == '\x1f' || c == '\x85' || c == '\xa0'

/-- Python `str.strip()`: remove leading and trailing whitespace. -/
def pyStrip (l : List Char) : List Char :=
  ((l.dropWhile isPySpace).reverse.dropWhile isPySpace).reverse

/-- Python `str.strip(q)` for a single character `q`: remove every leading and
trailing occurrence of `q`. -/
def stripChar (q : Char) (l : List Char) : List Char :=
  ((l.dropWhile (· == q)).reverse.dropWhile (· == q)).reverse

/-- ASCII lower-casing of one character, as Python `str.lower` acts on the
characters relevant here. -/
def pyLowerChar (c : Char) : Char :=
  if h : 65 ≤ c.toNat ∧ c.toNat ≤ 90 then
    Char.ofNatAux (c.toNat + 32) (Or.inl (by omega))
  else c

/-- Python `str.lower()`. -/
def pyLower (l : List Char) : List Char := l.map pyLowerChar

/-- States of the `csv.reader` field scanner (default dialect:
delimiter `,`, quote `"`, doublequote on, non-strict). -/
inductive CsvState where
  | startField
  | inField
  | inQuoted
  | quoteInQuoted

/-- One-line run of the `csv.reader` state machine (default dialect,
non-strict), as `app.py` uses it via `next(csv.reader([line]))`.
`field` is the current field reversed, `row` the fields finished so far. -/
def csvGo : CsvState → List Char → List (List Char) → List Char → List (List Char)
  | _, field, row, [] => row ++ [field.reverse]
  | st, field, row, c :: rest =>
    match st with
    | CsvState.startField =>
      if c == '"' then csvGo CsvState.inQuoted field row rest
      else if c == ',' then csvGo CsvState.startField [] (row ++ [field.reverse]) rest
      else csvGo CsvState.inField (c :: field) row rest
    | CsvState.inField =>
      if c == ',' then csvGo CsvState.startField [] (row ++ [field.reverse]) rest
      else csvGo CsvState.inField (c :: field) row rest
    | CsvState.inQuoted =>
      if c == '"' then csvGo CsvState.quoteInQuoted field row rest
      else csvGo CsvState.inQuoted (c :: field) row rest
    | CsvState.quoteInQuoted =>
      if c == '"' then csvGo CsvState.inQuoted (c :: field) row rest
      else if c == ',' then csvGo CsvState.startField [] (row ++ [field.reverse]) rest
      else csvGo CsvState.inField (c :: field) row rest

/-- `next(csv.reader([line]))`: `none` models the `StopIteration` raised on an
empty line, otherwise the parsed row. -/
def csvParseRow (line : List Char) : Option (List (List Char)) :=
  match line with
  | [] => none
  | _ => some (csvGo CsvState.startField [] [] line)

/-- Python `str.split(sep)` for a one-character separator. -/
def pySplit : Char → List Char → List (List Char)
  | _, [] => [[]]
  | sep, c :: cs =>
    if c == sep then [] :: pySplit sep cs
    else
      match pySplit sep cs with
      | h :: t => (c :: h) :: t
      | [] => [[c]]

/-- Python format spec `:<w` (left justification padded with spaces). -/
def ljust (w : Nat) (s : List Char) : List Char :=
  if w ≤ s.length then s else s ++ List.replicate (w - s.length) ' '

/-- `f"{val_x:<20}{val_y}"` from `convert_csv_to_txt`. -/
def formatDataLine (x y : List Char) : List Char := ljust 20 x ++ y

/-- `curve_values = ["1.8", "1.35", "0.9", "0.45", "0"]`. -/
def curveValues : List (List Char) :=
  [chars "1.8", chars "1.35", chars "0.9", chars "0.45", chars "0"]

/-- `curve_values[curve_index % len(curve_values)]`. -/
def curveLabel (c : Nat) : List Char :=
  curveValues.get ⟨c % 5, by show c % 5 < 5; omega⟩

/-- `f"curve {{ {curve_value} }}"`. -/
def curveOutLine (c : Nat) : List Char :=
  chars "curve \x7b " ++ curveLabel c ++ chars " \x7d"

/-- `row[i].strip().strip(dquote).strip(squote).lower()` from the
boundary-marker check. -/
def cleanHeaderCell (cell : List Char) : List Char :=
  pyLower (stripChar squote (stripChar '"' (pyStrip cell)))

/-- The first boundary-marker test: CSV-parse the line and compare the first
two cleaned cells against `x` and `y` (the code tests `len(row) >= 2`). -/
def isXYHeader (line : List Char) : Bool :=
  match csvParseRow line with
  | some (c1 :: c2 :: _) =>
    cleanHeaderCell c1 == chars "x" && cleanHeaderCell c2 == chars "y"
  | _ => false

/-- The literal form written `squote x squote , squote y squote`. -/
def xyFormSQ : List Char := [squote, 'x', squote, ',', squote, 'y', squote]

/-- The three literal forms of the fallback boundary check. -/
def normalizedForms : List (List Char) := [chars "\"x\",\"y\"", chars "x,y", xyFormSQ]

/-- `line.replace(' ', '').lower()`. -/
def normalizeLine (line : List Char) : List Char :=
  pyLower (line.filter (fun c => !(c == ' ')))

/-- The fallback boundary-marker test `normalized_line in [...]`. -/
def normalizedMatch (line : List Char) : Bool :=
  normalizedForms.contains (normalizeLine line)

/-- The data-row section of the per-line loop: quote-aware parse, then the
single-field comma-split fallback, then (on a parse exception, i.e. an empty
line) the naive split with surrounding double quotes stripped; rows that still
have fewer than two fields are dropped. -/
def dataRowOut (line : List Char) : List (List Char) :=
  match csvParseRow line with
  | some (x :: y :: _) => [formatDataLine (pyStrip x) (pyStrip y)]
  | some [_] =>
    match pySplit ',' line with
    | p1 :: p2 :: _ => [formatDataLine (pyStrip p1) (pyStrip p2)]
    | _ => []
  | some [] => []
  | none =>
    match pySplit ',' line with
    | p1 :: p2 :: _ =>
      [formatDataLine (stripChar '"' (pyStrip p1)) (stripChar '"' (pyStrip p2))]
    | _ => []

/-- Processing of one stripped, non-blank line: boundary check, fallback
boundary check, else data-row formatting.  Returns the new curve counter and
the lines emitted for this input line. -/
def processLine (c : Nat) (line : List Char) : Nat × List (List Char) :=
  if isXYHeader line then (c + 1, [curveOutLine c])
  else if normalizedMatch line then (c + 1, [curveOutLine c])
  else (c, dataRowOut line)

/-- The per-line loop of `convert_csv_to_txt`: strip, skip blanks, thread the
curve counter. -/
def processLines : Nat → List (List Char) → List (List Char)
  | _, [] => []
  | c, l :: ls =>
    let s := pyStrip l
    if s.isEmpty then processLines c ls
    else (processLine c s).2 ++ processLines (processLine c s).1 ls

/-- Line-break characters recognised by Python `str.splitlines`. -/
def isLineBreak (c : Char) : Bool :=
  c == '\n' || c == '\r' || c == '\x0b' || c == '\x0c' || c == '\x1c' ||
  c == '\x1d' || c == '\x1e' || c == '\x85' || c == '\u2028' || c == '\u2029'

/-- Worker for `str.splitlines` (`acc` is the current line reversed). -/
def splitlinesGo : List Char → List Char → List (List Char)
  | acc, [] => if acc.isEmpty then [] else [acc.reverse]
  | acc, '\r' :: '\n' :: rest => acc.reverse :: splitlinesGo [] rest
  | acc, c :: rest =>
    if isLineBreak c then acc.reverse :: splitlinesGo [] rest
    else splitlinesGo (c :: acc) rest

/-- Python `str.splitlines()`. -/
def pySplitlines (text : List Char) : List (List Char) := splitlinesGo [] text

/-- Decimal rendering of a number, as Python string formatting of an `int`. -/
def natChars (n : Nat) : List Char := (Nat.repr n).data

/-- Python `s[-2:]`. -/
def lastTwo (l : List Char) : List Char := l.drop (l.length - 2)

/-- `f"{now.month}/{now.day}/{str(now.year)[-2:]}"`. -/
def dateStr (m d y : Nat) : List Char :=
  natChars m ++ chars "/" ++ natChars d ++ chars "/" ++ lastTwo (natChars y)

/-- The `condition{...}` header line. -/
def condLine (date : List Char) : List Char :=
  chars "condition\x7bdate=" ++ date ++
    chars ",instrument=pseudo.meter,mode=forward,type=nmos\x7d"

/-- The `Page (...){...}` header line. -/
def pageLine (vbs w l : List Char) : List Char :=
  chars "Page (name=Ids_Vds_Vgs,x=Vds,p=Vgs,y=Ids)\x7bVbs=" ++ vbs ++
    chars ",W=" ++ w ++ chars ",L=" ++ l ++ chars ",T=25\x7d"

/-- The list of output lines of `convert_csv_to_txt`, with the current date
passed in as `m`/`d`/`y` (the code reads it from `datetime.now()`). -/
def outputLines (text : List Char) (m d y : Nat) (vbs w l : List Char) :
    List (List Char) :=
  [condLine (dateStr m d y), [], pageLine vbs w l] ++
    processLines 0 (pySplitlines text)

/-- `convert_csv_to_txt` applied to already-decoded text: the joined output. -/
def convert_csv_to_txt (text : List Char) (m d y : Nat) (vbs w l : List Char) :
    List Char :=
  List.intercalate (chars "\n") (outputLines text m d y vbs w l)

/-- `[\d.]`: a digit or a decimal point. -/
def isDigitDot (c : Char) : Bool := c.isDigit || c == '.'

/-- Anchored match of `([\d.]+)\s*[Ll]` at the start of the (lower-cased)
suffix `s`; returns the captured group. -/
def lMatchAt (s : List Char) : Option (List Char) :=
  let ds := s.takeWhile isDigitDot
  if ds.isEmpty then none
  else
    match (s.drop ds.length).dropWhile isPySpace with
    | c :: _ => if c == 'l' then some ds else none
    | [] => none

/-- `re.search` of `([\d.]+)\s*[Ll]`: leftmost anchored match. -/
def lSearch : List Char → Option (List Char)
  | [] => none
  | c :: cs =>
    match lMatchAt (c :: cs) with
    | some v => some v
    | none => lSearch cs

/-- Anchored match of `vbs[_\s]*(-?[\d.]+)` at the start of the (lower-cased)
suffix; returns the captured group. -/
def vbsMatchAt : List Char → Option (List Char)
  | 'v' :: 'b' :: 's' :: rest =>
    let rest2 := rest.dropWhile (fun c => c == '_' || isPySpace c)
    match rest2 with
    | '-' :: r =>
      let ds := r.takeWhile isDigitDot
      if ds.isEmpty then none else some ('-' :: ds)
    | r =>
      let ds := r.takeWhile isDigitDot
      if ds.isEmpty then none else some ds
  | _ => none

/-- `re.search` of `vbs[_\s]*(-?[\d.]+)`: leftmost anchored match. -/
def vbsSearch : List Char → Option (List Char)
  | [] => none
  | c :: cs =>
    match vbsMatchAt (c :: cs) with
    | some v => some v
    | none => vbsSearch cs

/-- `parse_parameters_from_filename`: lower-case the filename, run the two
regex extractions, and report whether at least one succeeded. -/
def parse_parameters_from_filename (filename : List Char) :
    Option (List Char) × Option (List Char) × Bool :=
  let fl := pyLower filename
  let lv := lSearch fl
  let vv := vbsSearch fl
  (lv, vv, lv.isSome || vv.isSome)

/-- The three parameter strings actually used for one file's conversion. -/
structure EffectiveParameters where
  l : List Char
  vbs : List Char
  w : List Char
deriving DecidableEq

/-- The per-file parameter resolution in `main` (lines 245-260): forced manual
values, else parsed-value-or-manual-default for L and Vbs, manual W always. -/
def resolveParams (force : Bool) (lManual vbsManual wManual : List Char)
    (filename : List Char) : EffectiveParameters :=
  if force then ⟨lManual, vbsManual, wManual⟩
  else
    let p := parse_parameters_from_filename filename
    ⟨p.1.getD lManual, p.2.1.getD vbsManual, wManual⟩

/-- Python `bytes.decode('latin-1')`: total, maps each byte to U+0000..U+00FF. -/
def latin1Decode (bs : List Nat) : Option (List Char) :=
  some (bs.map (fun b => Char.ofNat (b % 256)))

/-- `encodings = ['utf-8', 'gbk', 'gb2312', 'latin-1']`. -/
def encodingCandidates : List (List Char) :=
  [chars "utf-8", chars "gbk", chars "gb2312", chars "latin-1"]

/-- `file_content.decode(encoding)` dispatched on the encoding name.  The
UTF-8, GBK and GB2312 codecs are abstract parameters (they are Python-stdlib
code); latin-1 is concrete because its totality matters. -/
def decodeBytes (utf8D gbkD gbD : List Nat → Option (List Char))
    (enc : List Char) (bs : List Nat) : Option (List Char) :=
  if enc == chars "utf-8" then utf8D bs
  else if enc == chars "gbk" then gbkD bs
  else if enc == chars "gb2312" then gbD bs
  else if enc == chars "latin-1" then latin1Decode bs
  else none

/-- The candidate loop of `detect_encoding`. -/
def detectGo (test : List Char → Bool) : List (List Char) → List Char
  | [] => chars "utf-8"
  | e :: es => if test e then e else detectGo test es

/-- `detect_encoding`: first candidate that decodes, else `'utf-8'`. -/
def detect_encoding (utf8D gbkD gbD : List Nat → Option (List Char))
    (bs : List Nat) : List Char :=
  detectGo (fun e => (decodeBytes utf8D gbkD gbD e bs).isSome) encodingCandidates

/-- The decode step of `convert_csv_to_txt` (lines 134-141): decode under the
detected encoding, with the lossy `errors='ignore'` branch modelled by an
arbitrary fallback function. -/
def decodeContent (utf8D gbkD gbD : List Nat → Option (List Char))
    (fallback : List Nat → List Char) (bs : List Nat) : List Char :=
  match decodeBytes utf8D gbkD gbD (detect_encoding utf8D gbkD gbD bs) bs with
  | some t => t
  | none => fallback bs

/-! ### Helper lemmas -/

theorem ljust_eq (x : List Char) :
    ljust 20 x = x ++ List.replicate (20 - x.length) ' ' := by
  unfold ljust
  by_cases h : 20 ≤ x.length
  · simp [h, Nat.sub_eq_zero_of_le h]
  · simp [h]

theorem curveLabel_shift (c : Nat) : curveLabel (c + 5) = curveLabel c := by
  unfold curveLabel
  congr 1
  exact Fin.ext (Nat.add_mod_right c 5)

theorem processLine_shift (c : Nat) (line : List Char) :
    processLine (c + 5) line = ((processLine c line).1 + 5, (processLine c line).2) := by
  have hco : curveOutLine (c + 5) = curveOutLine c := by
    unfold curveOutLine; rw [curveLabel_shift]
  by_cases h1 : isXYHeader line
  · simp [processLine, h1, hco, Nat.add_right_comm]
  · by_cases h2 : normalizedMatch line
    · simp [processLine, h1, h2, hco, Nat.add_right_comm]
    · simp [processLine, h1, h2]

theorem processLines_shift (lines : List (List Char)) :
    ∀ c : Nat, processLines (c + 5) lines = processLines c lines := by
  induction lines with
  | nil => intro c; rfl
  | cons l ls ih =>
    intro c
    by_cases h : (pyStrip l).isEmpty <;>
      simp [processLines, h, processLine_shift, ih]

theorem csvGo_no_comma (input : List Char) :
    ∀ (st : CsvState) (field : List Char) (row : List (List Char)),
      ',' ∉ input → ∃ f, csvGo st field row input = row ++ [f] := by
  induction input with
  | nil => intro st field row _; exact ⟨field.reverse, rfl⟩
  | cons c rest ih =>
    intro st field row hmem
    have hc : ¬(c = ',') := fun h => hmem (h ▸ List.mem_cons_self c rest)
    have hr : ',' ∉ rest := fun h => hmem (List.mem_cons_of_mem c h)
    have hcb : (c == ',') = false := by simpa using hc
    cases st with
    | startField =>
      by_cases hq : (c == '"') = true <;> simp [csvGo, hq, hcb] <;> exact ih _ _ _ hr
    | inField =>
      simp [csvGo, hcb]; exact ih _ _ _ hr
    | inQuoted =>
      by_cases hq : (c == '"') = true <;> simp [csvGo, hq] <;> exact ih _ _ _ hr
    | quoteInQuoted =>
      by_cases hq : (c == '"') = true <;> simp [csvGo, hq, hcb] <;> exact ih _ _ _ hr

theorem csvParseRow_no_comma (line : List Char) (hne : line ≠ [])
    (hmem : ',' ∉ line) : ∃ f, csvParseRow line = some [f] := by
  obtain ⟨f, hf⟩ := csvGo_no_comma line CsvState.startField [] [] hmem
  cases line with
  | nil => exact absurd rfl hne
  | cons c cs =>
    refine ⟨f, ?_⟩
    show some (csvGo CsvState.startField [] [] (c :: cs)) = some [f]
    rw [hf]
    rfl

theorem toNat_ofNatAux (n : Nat) (h : n.isValidChar) :
    (Char.ofNatAux n h).toNat = n := rfl

theorem pyLowerChar_comma (c : Char) (h : pyLowerChar c = ',') : c = ',' := by
  unfold pyLowerChar at h
  split at h
  · rename_i hc
    have := congrArg Char.toNat h
    rw [toNat_ofNatAux] at this
    have h44 : (',' : Char).toNat = 44 := by decide
    omega
  · exact h

theorem mem_of_mem_dropWhile {α : Type} (p : α → Bool) (l : List α) (a : α)
    (h : a ∈ l.dropWhile p) : a ∈ l := by
  induction l with
  | nil => simp at h
  | cons b t ih =>
    by_cases hb : p b = true
    · simp only [List.dropWhile_cons, hb, if_true] at h
      exact List.mem_cons_of_mem b (ih h)
    · simp only [List.dropWhile_cons, hb, if_false] at h
      exact h

theorem pyStrip_mem (l : List Char) (a : Char) (h : a ∈ pyStrip l) : a ∈ l := by
  unfold pyStrip at h
  rw [List.mem_reverse] at h
  have h2 := mem_of_mem_dropWhile _ _ _ h
  rw [List.mem_reverse] at h2
  exact mem_of_mem_dropWhile _ _ _ h2

theorem mem_comma_normalize (line : List Char) (h : ',' ∈ normalizeLine line) :
    ',' ∈ line := by
  unfold normalizeLine pyLower at h
  obtain ⟨a, ha, hfa⟩ := List.mem_map.mp h
  have : a = ',' := pyLowerChar_comma a hfa
  subst this
  exact (List.mem_filter.mp ha).1

theorem normalizedMatch_no_comma (line : List Char) (hmem : ',' ∉ line) :
    normalizedMatch line = false := by
  by_contra hne
  have ht : normalizedMatch line = true := by
    cases h : normalizedMatch line
    · exact absurd h hne
    · rfl
  unfold normalizedMatch at ht
  have hin : normalizeLine line ∈ normalizedForms := by
    simpa [List.contains] using ht
  have hcomma : ',' ∈ normalizeLine line := by
    simp only [normalizedForms, List.mem_cons, List.not_mem_nil, or_false] at hin
    rcases hin with h1 | h1 | h1 <;> rw [h1] <;> decide
  exact hmem (mem_comma_normalize line hcomma)

theorem pySplit_no_comma (line : List Char) (hmem : ',' ∉ line) :
    pySplit ',' line = [line] := by
  induction line with
  | nil => rfl
  | cons c cs ih =>
    have hc : ¬(c = ',') := fun h => hmem (h ▸ List.mem_cons_self c cs)
    have hr : ',' ∉ cs := fun h => hmem (List.mem_cons_of_mem c h)
    have hcb : (c == ',') = false := by simpa using hc
    simp [pySplit, hcb, ih hr]

theorem processLine_no_comma (c : Nat) (line : List Char) (hne : line ≠ [])
    (hmem : ',' ∉ line) : processLine c line = (c, []) := by
  obtain ⟨f, hf⟩ := csvParseRow_no_comma line hne hmem
  have h1 : isXYHeader line = false := by simp [isXYHeader, hf]
  have h2 : normalizedMatch line = false := normalizedMatch_no_comma line hmem
  simp [processLine, h1, h2, dataRowOut, hf, pySplit_no_comma line hmem]

theorem detectGo_eq_find (test : List Char → Bool) (cand : List (List Char)) :
    detectGo test cand = (cand.find? test).getD (chars "utf-8") := by
  induction cand with
  | nil => rfl
  | cons e es ih =>
    by_cases h : test e = true <;> simp [detectGo, List.find?_cons, h, ih]

theorem decodeBytes_latin1 (utf8D gbkD gbD : List Nat → Option (List Char))
    (bs : List Nat) :
    decodeBytes utf8D gbkD gbD (chars "latin-1") bs = latin1Decode bs := rfl

theorem detect_ok (utf8D gbkD gbD : List Nat → Option (List Char)) (bs : List Nat) :
    (decodeBytes utf8D gbkD gbD (detect_encoding utf8D gbkD gbD bs) bs).isSome = true ∧
    detect_encoding utf8D gbkD gbD bs ∈ encodingCandidates := by
  simp only [detect_encoding, encodingCandidates, detectGo]
  split_ifs with h1 h2 h3 h4
  · exact ⟨h1, by decide⟩
  · exact ⟨h2, by decide⟩
  · exact ⟨h3, by decide⟩
  · exact ⟨h4, by decide⟩
  · exact absurd (by rw [decodeBytes_latin1]; rfl) h4

/-! ### Claim theorems -/

/-- C1, counterexample: the line `x,y,z` CSV-parses into three fields, not
exactly two, yet the converter classifies it as a boundary marker: it emits a
`curve` line with the label at counter index 0 and increments the counter. -/
theorem C1_counterexample :
    csvParseRow (chars "x,y,z") = some [chars "x", chars "y", chars "z"] ∧
    processLine 0 (chars "x,y,z") = (1, [chars "curve \x7b 1.8 \x7d"]) := by
  decide

/-- C1, amended: a line is classified as a boundary marker exactly when
quote-aware parsing yields at least two fields whose first two trimmed,
quote-stripped, lower-cased values are `x` and `y`, or the space-stripped
lower-cased line equals one of the three literal fallback forms; on a match
the converter emits exactly one `curve`-label line whose label is the fixed
list indexed at counter mod 5, increments the counter, and does not also emit
the line as a data row. -/
theorem C1_amended (c : Nat) (line : List Char) :
    (processLine c line =
      if isXYHeader line || normalizedMatch line then (c + 1, [curveOutLine c])
      else (c, dataRowOut line)) ∧
    (isXYHeader line = true ↔
      ∃ c1 c2 rest, csvParseRow line = some (c1 :: c2 :: rest) ∧
        cleanHeaderCell c1 = chars "x" ∧ cleanHeaderCell c2 = chars "y") ∧
    curveOutLine c = chars "curve \x7b " ++ curveLabel c ++ chars " \x7d" := by
  refine ⟨?_, ?_, rfl⟩
  · by_cases h1 : isXYHeader line <;> by_cases h2 : normalizedMatch line <;>
      simp [processLine, h1, h2]
  · unfold isXYHeader
    cases h : csvParseRow line with
    | none => simp
    | some row =>
      cases row with
      | nil => simp
      | cons a t =>
        cases t with
        | nil => simp
        | cons b r =>
          simp only [Option.some.injEq, List.cons.injEq, Bool.and_eq_true, beq_iff_eq]
          constructor
          · rintro ⟨ha, hb⟩; exact ⟨a, b, r, ⟨rfl, rfl, rfl⟩, ha, hb⟩
          · rintro ⟨c1, c2, rest, ⟨ha, hb, _⟩, hx, hy⟩
            subst ha; subst hb
            exact ⟨hx, hy⟩

/-- C2, counterexample: the data row `1.5,2.3e-6` is emitted as `1.5` followed
by 17 spaces and then `2.3e-6` (a 20-character left field), not by 18 spaces
as the claim states. -/
theorem C2_counterexample :
    (processLine 0 (chars "1.5,2.3e-6")).2 =
      [chars "1.5" ++ List.replicate 17 ' ' ++ chars "2.3e-6"] ∧
    (processLine 0 (chars "1.5,2.3e-6")).2 ≠
      [chars "1.5" ++ List.replicate 18 ' ' ++ chars "2.3e-6"] := by
  decide

/-- C2, amended: a data row's output line is the x-value left-justified and
padded to exactly 20 character positions followed immediately by the y-value
(no padding when x is already 20 characters or longer); the row `1.5,2.3e-6`
yields `1.5`, 17 spaces, `2.3e-6`. -/
theorem C2_amended :
    (∀ x y : List Char,
      formatDataLine x y = x ++ List.replicate (20 - x.length) ' ' ++ y) ∧
    (∀ x y : List Char, 20 ≤ x.length → formatDataLine x y = x ++ y) ∧
    processLines 0 [chars "1.5,2.3e-6"] =
      [chars "1.5" ++ List.replicate 17 ' ' ++ chars "2.3e-6"] := by
  refine ⟨?_, ?_, by decide⟩
  · intro x y
    unfold formatDataLine
    rw [ljust_eq, List.append_assoc]
  · intro x y h
    unfold formatDataLine ljust
    simp [h]

/-- C2, witness: the no-padding case at a concrete 25-character x-value. -/
theorem C2_amended_witness :
    formatDataLine (List.replicate 25 'a') (chars "b") =
      List.replicate 25 'a' ++ chars "b" :=
  C2_amended.2.1 (List.replicate 25 'a') (chars "b") (by decide)

/-- C3: curve labels follow the fixed 5-value cycle starting at index 0: the
counter only matters modulo 5 (shifting it by 5 leaves all output unchanged),
and a file with 7 boundary-marker lines produces the labels
1.8, 1.35, 0.9, 0.45, 0, 1.8, 1.35 in order. -/
theorem C3_cycling :
    (∀ (lines : List (List Char)) (c : Nat),
      processLines (c + 5) lines = processLines c lines) ∧
    outputLines (chars "x,y\n0.1,2e-6\nx,y\nx,y\nx,y\nx,y\nx,y\nx,y") 10 11 2026
        (chars "0.1") (chars "1") (chars "10") =
      [chars "condition\x7bdate=10/11/26,instrument=pseudo.meter,mode=forward,type=nmos\x7d",
       [],
       chars "Page (name=Ids_Vds_Vgs,x=Vds,p=Vgs,y=Ids)\x7bVbs=0.1,W=1,L=10,T=25\x7d",
       chars "curve \x7b 1.8 \x7d",
       chars "0.1" ++ List.replicate 17 ' ' ++ chars "2e-6",
       chars "curve \x7b 1.35 \x7d",
       chars "curve \x7b 0.9 \x7d",
       chars "curve \x7b 0.45 \x7d",
       chars "curve \x7b 0 \x7d",
       chars "curve \x7b 1.8 \x7d",
       chars "curve \x7b 1.35 \x7d"] :=
  ⟨fun lines c => processLines_shift lines c, by decide⟩

/-- C4: the output always begins with the three unconditional header lines —
`condition{...}` with the date as month/day and last-two-digit year, a blank
line, and the `Page (...)` line with Vbs, W, L emitted verbatim and `T=25` —
independently of the file text; month and day carry no leading zero and the
year part is two digits for present-day years. -/
theorem C4_header (t1 t2 : List Char) (m d y : Nat) (vbs w l : List Char) :
    ((outputLines t1 m d y vbs w l).take 3 =
      [condLine (dateStr m d y), [], pageLine vbs w l]) ∧
    (outputLines t1 m d y vbs w l).take 3 = (outputLines t2 m d y vbs w l).take 3 ∧
    pageLine vbs w l =
      chars "Page (name=Ids_Vds_Vgs,x=Vds,p=Vgs,y=Ids)\x7bVbs=" ++ vbs ++
        chars ",W=" ++ w ++ chars ",L=" ++ l ++ chars ",T=25\x7d" ∧
    dateStr m d y =
      natChars m ++ chars "/" ++ natChars d ++ chars "/" ++ lastTwo (natChars y) ∧
    (0 < m → m < 13 → (natChars m).head? ≠ some '0') ∧
    (0 < d → d < 32 → (natChars d).head? ≠ some '0') ∧
    (2000 ≤ y → y < 2100 → (lastTwo (natChars y)).length = 2) := by
  refine ⟨rfl, rfl, rfl, rfl, ?_, ?_, ?_⟩
  · intro h1 h2; interval_cases m <;> decide
  · intro h1 h2; interval_cases d <;> decide
  · intro h1 h2; interval_cases y <;> decide

/-- C4, witness: the header facts at a concrete file and date. -/
theorem C4_header_witness :
    ((outputLines (chars "x,y") 1 6 2026 (chars "0.1") (chars "1")
        (chars "10")).take 3 =
      [condLine (dateStr 1 6 2026), [],
       pageLine (chars "0.1") (chars "1") (chars "10")]) ∧
    (natChars 1).head? ≠ some '0' ∧
    (lastTwo (natChars 2026)).length = 2 := by
  have h := C4_header (chars "x,y") (chars "a,b") 1 6 2026 (chars "0.1")
    (chars "1") (chars "10")
  exact ⟨h.1, h.2.2.2.2.1 (by decide) (by decide),
    h.2.2.2.2.2.2 (by decide) (by decide)⟩

/-- C5: evaluating the filename parsing at the claim's own examples shows the
code capturing the dot of the `.csv` suffix into the Vbs value (`0.05.` and
`-1.8.` instead of the documented `0.05` and `-1.8`): the `[\d.]+` character
class does not stop at the end of the number. -/
theorem C5_code_eval :
    parse_parameters_from_filename (chars "Ids_vgs_0.5L_vbs0.05.csv") =
      (some (chars "0.5"), some (chars "0.05."), true) ∧
    parse_parameters_from_filename (chars "test_1.2L_vbs-1.8.csv") =
      (some (chars "1.2"), some (chars "-1.8."), true) := by
  decide

/-- C6: with the forced-manual flag the effective parameters are the manual
values for every filename (including fully parsable ones); otherwise L and Vbs
each independently take the parsed value when present and the manual default
when absent, and W always takes the manual default. -/
theorem C6_resolution (lm vm wm fname : List Char) :
    resolveParams true lm vm wm fname = ⟨lm, vm, wm⟩ ∧
    resolveParams false lm vm wm fname =
      ⟨((parse_parameters_from_filename fname).1).getD lm,
       ((parse_parameters_from_filename fname).2.1).getD vm, wm⟩ ∧
    (resolveParams false lm vm wm fname).w = wm ∧
    resolveParams true (chars "10") (chars "0.1") (chars "1")
        (chars "Ids_vgs_0.5L_vbs0.05.csv") =
      ⟨chars "10", chars "0.1", chars "1"⟩ :=
  ⟨rfl, rfl, rfl, rfl⟩

/-- C7, counterexample: a data row whose values are wrapped in single quotes
is emitted with the quotes retained, not removed as the claim states. -/
theorem C7_counterexample :
    (processLine 0 ([squote] ++ chars "1.5" ++ [squote, ','] ++ [squote] ++
        chars "2.3e-6" ++ [squote])).2 =
      [[squote] ++ chars "1.5" ++ [squote] ++ List.replicate 15 ' ' ++
        [squote] ++ chars "2.3e-6" ++ [squote]] ∧
    (processLine 0 ([squote] ++ chars "1.5" ++ [squote, ','] ++ [squote] ++
        chars "2.3e-6" ++ [squote])).2 ≠
      [chars "1.5" ++ List.replicate 17 ' ' ++ chars "2.3e-6"] := by
  decide

/-- C7, amended: once two field values are obtained by the quote-aware parse,
only surrounding whitespace is trimmed before formatting; quote characters are
not additionally stripped (double quotes disappear only when the quote-aware
parser consumes them as field delimiters, as in `"1.5",2.3`). -/
theorem C7_amended :
    (∀ (c : Nat) (line x y : List Char) (rest : List (List Char)),
      csvParseRow line = some (x :: y :: rest) →
      isXYHeader line = false → normalizedMatch line = false →
      (processLine c line).2 = [formatDataLine (pyStrip x) (pyStrip y)]) ∧
    (processLine 0 (chars "\"1.5\",2.3")).2 =
      [chars "1.5" ++ List.replicate 17 ' ' ++ chars "2.3"] := by
  refine ⟨?_, by decide⟩
  intro c line x y rest hp h1 h2
  simp [processLine, h1, h2, dataRowOut, hp]

/-- C7, witness: the whitespace-only trimming at a concrete row. -/
theorem C7_amended_witness :
    (processLine 0 (chars "a,b")).2 =
      [formatDataLine (pyStrip (chars "a")) (pyStrip (chars "b"))] :=
  C7_amended.1 0 (chars "a,b") (chars "a") (chars "b") []
    (by decide) (by decide) (by decide)

/-- C8: a row-level parse problem never aborts the conversion: a line without
a comma contributes no output line and leaves the counter unchanged (the whole
file result equals the result without that line), and every line contributes
at most one output line (processing is total, so no error can propagate). -/
theorem C8_graceful :
    (∀ (c : Nat) (l : List Char) (ls : List (List Char)),
      ',' ∉ l → processLines c (l :: ls) = processLines c ls) ∧
    (∀ (c : Nat) (line : List Char), (processLine c line).2.length ≤ 1) := by
  constructor
  · intro c l ls hmem
    by_cases he : (pyStrip l).isEmpty = true
    · simp [processLines, he]
    · have hne : pyStrip l ≠ [] := by
        intro h; rw [h] at he; exact he rfl
      have hmem' : ',' ∉ pyStrip l := fun hm => hmem (pyStrip_mem l ',' hm)
      have hp := processLine_no_comma c (pyStrip l) hne hmem'
      simp [processLines, he, hp]
  · intro c line
    by_cases h1 : isXYHeader line
    · simp [processLine, h1]
    · by_cases h2 : normalizedMatch line
      · simp [processLine, h1, h2]
      · have : processLine c line = (c, dataRowOut line) := by
          simp [processLine, h1, h2]
        rw [this]
        unfold dataRowOut
        split
        · simp
        · split <;> simp
        · simp
        · split <;> simp

/-- C8, witness: a concrete comma-less line is dropped with no error. -/
theorem C8_graceful_witness :
    processLines 0 [chars "justonefield", chars "x,y"] =
      processLines 0 [chars "x,y"] :=
  C8_graceful.1 0 (chars "justonefield") [chars "x,y"] (by decide)

/-- C9: the encoding detector returns the first encoding of the ordered
candidate list UTF-8, GBK, GB2312, Latin-1 under which the bytes decode
without error, and UTF-8 when all candidates fail; it is a pure function of
its inputs. -/
theorem C9_detect (utf8D gbkD gbD : List Nat → Option (List Char)) (bs : List Nat) :
    detect_encoding utf8D gbkD gbD bs =
      ((encodingCandidates.find?
          (fun e => (decodeBytes utf8D gbkD gbD e bs).isSome)).getD
        (chars "utf-8")) :=
  detectGo_eq_find _ _

/-- C10: because Latin-1 decoding succeeds on every byte sequence, the
detector always returns one of the four candidates, the returned encoding
always decodes the bytes, and the lossy fallback branch of the converter's
decode step is unreachable: its result does not depend on the fallback
function at all. -/
theorem C10_fallback_unreachable (utf8D gbkD gbD : List Nat → Option (List Char))
    (fb1 fb2 : List Nat → List Char) (bs : List Nat) :
    (decodeBytes utf8D gbkD gbD (detect_encoding utf8D gbkD gbD bs) bs).isSome = true ∧
    detect_encoding utf8D gbkD gbD bs ∈ encodingCandidates ∧
    decodeContent utf8D gbkD gbD fb1 bs = decodeContent utf8D gbkD gbD fb2 bs := by
  obtain ⟨hsome, hmem⟩ := detect_ok utf8D gbkD gbD bs
  refine ⟨hsome, hmem, ?_⟩
  unfold decodeContent
  cases hx : decodeBytes utf8D gbkD gbD (detect_encoding utf8D gbkD gbD bs) bs with
  | none => rw [hx] at hsome; simp at hsome
  | some t => simp [hx]
